import Mathlib

/-!
Shallow embedding of the fetch/retry/failover/poll core of `src/app/page.tsx`
(coincap).  The pure helpers (`toggleWatchlist`, `filteredCryptos`) are
embedded directly.  The async recursion `fetchCryptoData(retry, useBackup)` is
embedded as `runCycle`, a function over a script that supplies, for each
attempt, the observable result of that attempt's network fetch.  React state
(the `useState` cells written by `fetchCryptoData`) is explicit state passing
over `AppState`; every `await sleep(..)` and every fetch attempt is recorded
as an event in a trace, so timing and ordering claims can be stated about the
trace.
-/

set_option maxRecDepth 8000

namespace Coincap

/-- `INITIAL_RETRY_DELAY` from `src/app/page.tsx` (milliseconds). -/
def INITIAL_RETRY_DELAY : Nat := 2000

/-- `MAX_RETRIES` from `src/app/page.tsx`. -/
def MAX_RETRIES : Nat := 5

/-- The 60000 ms period passed to `setInterval` in the `useEffect`. -/
def POLL_INTERVAL : Nat := 60000

/-- JS `hay.includes(needle)` on the underlying character lists: `needle`
occurs contiguously somewhere in `hay` (the empty needle always occurs). -/
def listContains : List Char → List Char → Bool
  | [], needle => needle.isEmpty
  | c :: t, needle => needle.isPrefixOf (c :: t) || listContains t needle

/-- JS `String.prototype.includes`. -/
def strIncludes (hay needle : String) : Bool := listContains hay.data needle.data

/-- JS `String.prototype.toLowerCase`, character-wise. -/
def lowerStr (s : String) : String := ⟨s.data.map Char.toLower⟩

/-- The message thrown when a 429 arrives with the retry budget exhausted. -/
def rateLimitFinalMsg : String := "Rate limit exceeded. Please try again in a few minutes."

/-- The message thrown for a 403 that is already on the backup endpoint. -/
def accessDeniedMsg : String := "Access denied. Please check your API permissions."

/-- The message thrown for HTTP 404. -/
def notFoundMsg : String := "The requested data is not available."

/-- The message thrown when a 2xx body is not an array. -/
def invalidFormatMsg : String := "Invalid data format received from API"

/-- The message thrown when a 2xx body is an empty array. -/
def emptyDataMsg : String := "No cryptocurrency data available"

/-- The message used for an aborted (timed out) request. -/
def timeoutMsg : String := "Request timed out. Retrying..."

/-- The `noRetryErrors` list from the catch block of `fetchCryptoData`. -/
def noRetryErrors : List String :=
  ["Invalid data", "Rate limit exceeded", "Access denied", "API permissions"]

/-- `!noRetryErrors.some(e => errorMessage.includes(e))`: the caught message
does not match any entry of the no-retry list. -/
def msgRetryable (msg : String) : Bool :=
  !(noRetryErrors.any fun e => strIncludes msg e)

/-- The status-based fallback error message for a non-ok response. -/
def httpStatusMsg (status : Nat) : String :=
  "HTTP error! status: " ++ toString status

/-- The error message derived from a non-ok response: the `error` field of the
parsed body when present, the status-based fallback otherwise. -/
def httpErrMsg (status : Nat) (bodyMsg : Option String) : String :=
  bodyMsg.getD (httpStatusMsg status)

/-- The in-progress message published before a backoff sleep. -/
def retryingMsg (retry : Nat) : String :=
  "Retrying in " ++ toString (INITIAL_RETRY_DELAY * 2 ^ (retry - 1) / 1000) ++
    " seconds... (Attempt " ++ toString retry ++ "/" ++ toString MAX_RETRIES ++ ")"

/-- What one attempt's `fetchWithTimeout` + body inspection can observe:
a non-ok response (status plus the optional `error` field parsed from the
body), an ok response whose JSON body is an array, an ok response whose body
is not an array, or a transport abort (the 20 s timeout). -/
inductive AttemptResult (α : Type) where
  | httpError (status : Nat) (bodyMsg : Option String)
  | okArray (data : List α)
  | okNotArray
  | timeout
deriving DecidableEq

/-- The `useState` cells of `Home` written by `fetchCryptoData`. -/
structure AppState (α : Type) where
  cryptocurrencies : List α
  error : Option String
  loading : Bool
  retryCount : Nat
  lastUpdateTime : Option Nat
  isUsingBackupAPI : Bool
deriving DecidableEq

/-- The initial values of those `useState` cells. -/
def initState (α : Type) : AppState α :=
  { cryptocurrencies := [], error := none, loading := true, retryCount := 0,
    lastUpdateTime := none, isUsingBackupAPI := false }

/-- How a cycle run over a finite script ends: settled successfully, settled
with a terminal error, or the script ran out before settlement. -/
inductive CycleResult (α : Type) where
  | succeeded (payload : List α)
  | failed (msg : String)
  | incomplete
deriving DecidableEq

/-- What one attempt decides: settle the cycle, or sleep the given delays and
run another attempt with the given retry index, endpoint and state. -/
inductive StepRes (α : Type) where
  | settled (s : AppState α) (res : CycleResult α)
  | next (sleeps : List Nat) (retry : Nat) (useBackup : Bool) (s : AppState α)
deriving DecidableEq

/-- Trace events: a `sleep(ms)` await, or a fetch attempt with its retry index
and endpoint selection (`true` = backup). -/
inductive Ev where
  | sleep (ms : Nat)
  | attempt (retry : Nat) (useBackup : Bool)
deriving DecidableEq

/-- State after the catch block sets the error and stops the spinner. -/
def failStateAfter (msg : String) (s : AppState α) : AppState α :=
  { s with error := some msg, loading := false }

/-- State after the catch block decides to retry: error and loading set as in
`failStateAfter`, then `setRetryCount(retry + 1)`. -/
def retryStateAfter (msg : String) (retry : Nat) (s : AppState α) : AppState α :=
  { s with error := some msg, loading := false, retryCount := retry + 1 }

/-- State written on success: `setCryptocurrencies(data); setError(null);
setLoading(false); setRetryCount(0); setLastUpdateTime(now);
setIsUsingBackupAPI(useBackup)`. -/
def successState (data : List α) (now : Nat) (useBackup : Bool) : AppState α :=
  { cryptocurrencies := data, error := none, loading := false, retryCount := 0,
    lastUpdateTime := some now, isUsingBackupAPI := useBackup }

/-- The catch block of `fetchCryptoData` for a thrown `Error` whose name is
not `AbortError`: record the message, stop the spinner, then retry when the
budget allows and the message matches no entry of `noRetryErrors`, else
settle `failed`. -/
def catchCommon (msg : String) (retry : Nat) (useBackup : Bool) (s : AppState α) : StepRes α :=
  if retry < MAX_RETRIES ∧ msgRetryable msg = true then
    StepRes.next [] (retry + 1) useBackup (retryStateAfter msg retry s)
  else
    StepRes.settled (failStateAfter msg s) (CycleResult.failed msg)

/-- One attempt of `fetchCryptoData` after the head backoff, translated branch
by branch from `src/app/page.tsx` lines 95–191: the 429 branch (fixed 5000 ms
sleep then recurse with `retry + 1`), the 403 branch (switch to backup once),
the 404 branch, the generic non-ok branch, the body checks of an ok response,
and the catch block (including the AbortError first-attempt switch). -/
def step (r : AttemptResult α) (retry : Nat) (useBackup : Bool) (now : Nat)
    (s : AppState α) : StepRes α :=
  match r with
  | AttemptResult.httpError status bodyMsg =>
    if status = 429 then
      if retry < MAX_RETRIES then
        StepRes.next [5000] (retry + 1) useBackup { s with retryCount := retry + 1 }
      else
        catchCommon rateLimitFinalMsg retry useBackup s
    else if status = 403 then
      if useBackup = false then
        StepRes.next [] 0 true { s with isUsingBackupAPI := true }
      else
        catchCommon accessDeniedMsg retry useBackup s
    else if status = 404 then
      catchCommon notFoundMsg retry useBackup s
    else
      catchCommon (httpErrMsg status bodyMsg) retry useBackup s
  | AttemptResult.okNotArray => catchCommon invalidFormatMsg retry useBackup s
  | AttemptResult.okArray data =>
    if data.length = 0 then
      catchCommon emptyDataMsg retry useBackup s
    else
      StepRes.settled (successState data now useBackup) (CycleResult.succeeded data)
  | AttemptResult.timeout =>
    if useBackup = false ∧ retry = 0 then
      StepRes.next [] 0 true s
    else
      catchCommon timeoutMsg retry useBackup s

/-- The head of an invocation of `fetchCryptoData(retry, ..)`: when
`retry > 0` it sleeps `INITIAL_RETRY_DELAY * 2^(retry-1)` ms. -/
def cycleHead (retry : Nat) : List Ev :=
  if retry = 0 then [] else [Ev.sleep (INITIAL_RETRY_DELAY * 2 ^ (retry - 1))]

/-- The state update of that head: when `retry > 0` it publishes the
"Retrying in .." message via `setError` before sleeping. -/
def headState (retry : Nat) (s : AppState α) : AppState α :=
  if retry = 0 then s else { s with error := some (retryingMsg retry) }

/-- One cycle of `fetchCryptoData`, driven by a script giving each attempt's
fetch result.  Returns the event trace (sleeps and attempts, in order), the
final `useState` snapshot, and how the cycle settled. -/
def runCycle : List (AttemptResult α) → Nat → Bool → Nat → AppState α →
    List Ev × AppState α × CycleResult α
  | [], retry, _, _, s => (cycleHead retry, headState retry s, CycleResult.incomplete)
  | r :: rest, retry, useBackup, now, s =>
    match step r retry useBackup now (headState retry s) with
    | StepRes.settled s2 res => (cycleHead retry ++ [Ev.attempt retry useBackup], s2, res)
    | StepRes.next sleeps retry2 useBackup2 s2 =>
      let t := runCycle rest retry2 useBackup2 now s2
      (cycleHead retry ++ Ev.attempt retry useBackup :: (sleeps.map Ev.sleep ++ t.1), t.2)

/-- Total milliseconds slept during a trace. -/
def cycleSleepTotal : List Ev → Nat
  | [] => 0
  | Ev.sleep ms :: t => ms + cycleSleepTotal t
  | Ev.attempt _ _ :: t => cycleSleepTotal t

/-- Milliseconds slept before the first attempt of a trace. -/
def leadingSleeps : List Ev → Nat
  | [] => 0
  | Ev.sleep ms :: t => ms + leadingSleeps t
  | Ev.attempt _ _ :: _ => 0

/-- Drop a trace's events up to and including its first attempt. -/
def dropThroughAttempt : List Ev → List Ev
  | [] => []
  | Ev.sleep _ :: t => dropThroughAttempt t
  | Ev.attempt _ _ :: t => t

/-- The retry index and endpoint of the i-th attempt of a trace. -/
def nthAttempt : List Ev → Nat → Option (Nat × Bool)
  | [], _ => none
  | Ev.sleep _ :: t, i => nthAttempt t i
  | Ev.attempt r b :: _, 0 => some (r, b)
  | Ev.attempt _ _ :: t, i + 1 => nthAttempt t i

/-- Number of attempts in a trace. -/
def countAttempts : List Ev → Nat
  | [] => 0
  | Ev.sleep _ :: t => countAttempts t
  | Ev.attempt _ _ :: t => countAttempts t + 1

/-- Every attempt of the trace has retry index at most `MAX_RETRIES`. -/
def attemptsBounded (evs : List Ev) : Bool :=
  evs.all fun e => match e with
    | Ev.attempt r _ => decide (r ≤ MAX_RETRIES)
    | Ev.sleep _ => true

/-- The endpoint selections of the trace's attempts, in order. -/
def attEndpoints : List Ev → List Bool
  | [] => []
  | Ev.sleep _ :: t => attEndpoints t
  | Ev.attempt _ b :: t => b :: attEndpoints t

/-- A boolean sequence never steps from `true` back to `false`. -/
def boolMono : List Bool → Bool
  | [] => true
  | false :: t => boolMono t
  | true :: t => t.all fun x => x

/-- Last element of a boolean list, if any. -/
def lastOption : List Bool → Option Bool
  | [] => none
  | b :: t => some ((lastOption t).getD b)

/-- The endpoint of the last attempt of a trace, if any. -/
def lastAttemptEndpoint (evs : List Ev) : Option Bool :=
  lastOption (attEndpoints evs)

/-- The `setInterval(.., 60000)` call armed in the `useEffect`: once armed at
time `arm`, tick `k` fires at `arm + POLL_INTERVAL * k`, independent of
whether the cycle started by the previous tick has settled. -/
def tickStart (arm k : Nat) : Nat := arm + POLL_INTERVAL * k

/-- The endpoint a tick's cycle starts on: the interval callback calls
`fetchCryptoData(0, isUsingBackupAPI)`, i.e. the current flag value. -/
def nextCycleStartEndpoint (s : AppState α) : Bool := s.isUsingBackupAPI

/-- `toggleWatchlist` from `src/app/page.tsx`: delete the id if present,
insert it otherwise. -/
def toggleWatchlist (watchlist : Finset String) (id : String) : Finset String :=
  if id ∈ watchlist then watchlist.erase id else insert id watchlist

/-- The `Cryptocurrency` interface; numeric fields are abstracted over `NumT`
(no claim computes with them). -/
structure Cryptocurrency (NumT : Type) where
  id : String
  symbol : String
  name : String
  image : String
  current_price : NumT
  price_change_percentage_24h : NumT
  market_cap : NumT
  total_volume : NumT
  market_cap_rank : NumT
  high_24h : NumT
  low_24h : NumT
  circulating_supply : NumT
deriving DecidableEq

/-- The predicate of the `filteredCryptos` filter: name or symbol contains the
search term, both lower-cased. -/
def matchesSearch {NumT : Type} (searchTerm : String) (crypto : Cryptocurrency NumT) : Bool :=
  strIncludes (lowerStr crypto.name) (lowerStr searchTerm) ||
  strIncludes (lowerStr crypto.symbol) (lowerStr searchTerm)

/-- `filteredCryptos` from `src/app/page.tsx`. -/
def filteredCryptos {NumT : Type} (cryptocurrencies : List (Cryptocurrency NumT))
    (searchTerm : String) : List (Cryptocurrency NumT) :=
  cryptocurrencies.filter (matchesSearch searchTerm)

/-! ### Inversion lemmas about one attempt -/

/-- Inverting `catchCommon` when it decides to retry. -/
theorem catchCommon_next_inv {α} {msg : String} {n : Nat} {b : Bool} {s : AppState α}
    {sl : List Nat} {n2 : Nat} {b2 : Bool} {s2 : AppState α}
    (h : catchCommon msg n b s = StepRes.next sl n2 b2 s2) :
    sl = [] ∧ n2 = n + 1 ∧ b2 = b ∧ n < MAX_RETRIES ∧ msgRetryable msg = true ∧
      s2 = retryStateAfter msg n s := by
  unfold catchCommon at h
  split at h
  · rename_i hc
    simp only [StepRes.next.injEq] at h
    obtain ⟨rfl, rfl, rfl, rfl⟩ := h
    exact ⟨rfl, rfl, rfl, hc.1, hc.2, rfl⟩
  · exact StepRes.noConfusion h

/-- Inverting `catchCommon` when it settles. -/
theorem catchCommon_settled_inv {α} {msg : String} {n : Nat} {b : Bool} {s : AppState α}
    {s2 : AppState α} {res : CycleResult α}
    (h : catchCommon msg n b s = StepRes.settled s2 res) :
    s2 = failStateAfter msg s ∧ res = CycleResult.failed msg := by
  unfold catchCommon at h
  split at h
  · exact StepRes.noConfusion h
  · simp only [StepRes.settled.injEq] at h
    obtain ⟨rfl, rfl⟩ := h
    exact ⟨rfl, rfl⟩

/-- Inverting `step` when it decides to run another attempt: the retry index
either increments under the budget (same endpoint) or resets to zero while
switching primary→backup; the dataset and timestamp cells are untouched. -/
theorem step_next_inv {α} {r : AttemptResult α} {n : Nat} {b : Bool} {now : Nat}
    {s : AppState α} {sl : List Nat} {n2 : Nat} {b2 : Bool} {s2 : AppState α}
    (h : step r n b now s = StepRes.next sl n2 b2 s2) :
    ((n2 = n + 1 ∧ b2 = b ∧ n < MAX_RETRIES) ∨ (n2 = 0 ∧ b2 = true ∧ b = false)) ∧
      s2.cryptocurrencies = s.cryptocurrencies ∧ s2.lastUpdateTime = s.lastUpdateTime := by
  cases r with
  | httpError status bodyMsg =>
    simp only [step] at h
    split at h
    · split at h
      · rename_i hlt
        simp only [StepRes.next.injEq] at h
        obtain ⟨rfl, rfl, rfl, rfl⟩ := h
        exact ⟨Or.inl ⟨rfl, rfl, hlt⟩, rfl, rfl⟩
      · obtain ⟨-, rfl, rfl, hlt, -, rfl⟩ := catchCommon_next_inv h
        exact ⟨Or.inl ⟨rfl, rfl, hlt⟩, rfl, rfl⟩
    · split at h
      · split at h
        · rename_i hb
          simp only [StepRes.next.injEq] at h
          obtain ⟨rfl, rfl, rfl, rfl⟩ := h
          exact ⟨Or.inr ⟨rfl, rfl, hb⟩, rfl, rfl⟩
        · obtain ⟨-, rfl, rfl, hlt, -, rfl⟩ := catchCommon_next_inv h
          exact ⟨Or.inl ⟨rfl, rfl, hlt⟩, rfl, rfl⟩
      · split at h
        · obtain ⟨-, rfl, rfl, hlt, -, rfl⟩ := catchCommon_next_inv h
          exact ⟨Or.inl ⟨rfl, rfl, hlt⟩, rfl, rfl⟩
        · obtain ⟨-, rfl, rfl, hlt, -, rfl⟩ := catchCommon_next_inv h
          exact ⟨Or.inl ⟨rfl, rfl, hlt⟩, rfl, rfl⟩
  | okNotArray =>
    simp only [step] at h
    obtain ⟨-, rfl, rfl, hlt, -, rfl⟩ := catchCommon_next_inv h
    exact ⟨Or.inl ⟨rfl, rfl, hlt⟩, rfl, rfl⟩
  | okArray data =>
    simp only [step] at h
    split at h
    · obtain ⟨-, rfl, rfl, hlt, -, rfl⟩ := catchCommon_next_inv h
      exact ⟨Or.inl ⟨rfl, rfl, hlt⟩, rfl, rfl⟩
    · exact StepRes.noConfusion h
  | timeout =>
    simp only [step] at h
    split at h
    · rename_i hc
      simp only [StepRes.next.injEq] at h
      obtain ⟨rfl, rfl, rfl, rfl⟩ := h
      exact ⟨Or.inr ⟨rfl, rfl, hc.1⟩, rfl, rfl⟩
    · obtain ⟨-, rfl, rfl, hlt, -, rfl⟩ := catchCommon_next_inv h
      exact ⟨Or.inl ⟨rfl, rfl, hlt⟩, rfl, rfl⟩

/-- Inverting `step` when it settles: either the catch block failed the cycle
(state `failStateAfter`, dataset untouched) or a non-empty array succeeded
(state `successState` with the serving endpoint recorded). -/
theorem step_settled_inv {α} {r : AttemptResult α} {n : Nat} {b : Bool} {now : Nat}
    {s s2 : AppState α} {res : CycleResult α}
    (h : step r n b now s = StepRes.settled s2 res) :
    (∃ msg, res = CycleResult.failed msg ∧ s2 = failStateAfter msg s) ∨
    (∃ p, res = CycleResult.succeeded p ∧ s2 = successState p now b) := by
  cases r with
  | httpError status bodyMsg =>
    simp only [step] at h
    split at h
    · split at h
      · exact StepRes.noConfusion h
      · obtain ⟨rfl, rfl⟩ := catchCommon_settled_inv h
        exact Or.inl ⟨_, rfl, rfl⟩
    · split at h
      · split at h
        · exact StepRes.noConfusion h
        · obtain ⟨rfl, rfl⟩ := catchCommon_settled_inv h
          exact Or.inl ⟨_, rfl, rfl⟩
      · split at h
        · obtain ⟨rfl, rfl⟩ := catchCommon_settled_inv h
          exact Or.inl ⟨_, rfl, rfl⟩
        · obtain ⟨rfl, rfl⟩ := catchCommon_settled_inv h
          exact Or.inl ⟨_, rfl, rfl⟩
  | okNotArray =>
    simp only [step] at h
    obtain ⟨rfl, rfl⟩ := catchCommon_settled_inv h
    exact Or.inl ⟨_, rfl, rfl⟩
  | okArray data =>
    simp only [step] at h
    split at h
    · obtain ⟨rfl, rfl⟩ := catchCommon_settled_inv h
      exact Or.inl ⟨_, rfl, rfl⟩
    · simp only [StepRes.settled.injEq] at h
      obtain ⟨rfl, rfl⟩ := h
      exact Or.inr ⟨_, rfl, rfl⟩
  | timeout =>
    simp only [step] at h
    split at h
    · exact StepRes.noConfusion h
    · obtain ⟨rfl, rfl⟩ := catchCommon_settled_inv h
      exact Or.inl ⟨_, rfl, rfl⟩

/-! ### Trace bookkeeping lemmas -/

theorem headState_cryptos {α} (n : Nat) (s : AppState α) :
    (headState n s).cryptocurrencies = s.cryptocurrencies := by
  unfold headState; split <;> rfl

theorem headState_lastUpdate {α} (n : Nat) (s : AppState α) :
    (headState n s).lastUpdateTime = s.lastUpdateTime := by
  unfold headState; split <;> rfl

theorem attemptsBounded_append (xs ys : List Ev) :
    attemptsBounded (xs ++ ys) = (attemptsBounded xs && attemptsBounded ys) :=
  List.all_append

theorem attemptsBounded_cycleHead (n : Nat) : attemptsBounded (cycleHead n) = true := by
  unfold cycleHead; split <;> rfl

theorem attemptsBounded_sleeps (l : List Nat) : attemptsBounded (l.map Ev.sleep) = true := by
  induction l with
  | nil => rfl
  | cons a t ih => exact ih

theorem attemptsBounded_cons_attempt (n : Nat) (b : Bool) (t : List Ev) :
    attemptsBounded (Ev.attempt n b :: t) = (decide (n ≤ MAX_RETRIES) && attemptsBounded t) := rfl

/-! ### Claim C5: the attempt count never exceeds MAX_RETRIES -/

/-- Claim C5 (confirmed): in every cycle started with a retry index within the
budget (in particular from the real entry point `fetchCryptoData()` with
retry index 0), every attempt the cycle performs — under every script of
classified outcomes — carries a retry index of at most `MAX_RETRIES`. -/
theorem C5_attempts_bounded {α} (script : List (AttemptResult α)) (n : Nat) (b : Bool)
    (now : Nat) (s : AppState α) (h : n ≤ MAX_RETRIES) :
    attemptsBounded (runCycle script n b now s).1 = true := by
  induction script generalizing n b s with
  | nil => exact attemptsBounded_cycleHead n
  | cons r rest ih =>
    simp only [runCycle]
    cases hstep : step r n b now (headState n s) with
    | settled s2 res =>
      rw [attemptsBounded_append, attemptsBounded_cycleHead, Bool.true_and,
        attemptsBounded_cons_attempt, decide_eq_true h]
      rfl
    | next sl n2 b2 s2 =>
      have hn2 : n2 ≤ MAX_RETRIES := by
        rcases (step_next_inv hstep).1 with ⟨rfl, -, hlt⟩ | ⟨rfl, -, -⟩ <;> omega
      have ht := ih n2 b2 s2 hn2
      rw [attemptsBounded_append, attemptsBounded_cycleHead, Bool.true_and,
        attemptsBounded_cons_attempt, decide_eq_true h, Bool.true_and,
        attemptsBounded_append, attemptsBounded_sleeps, Bool.true_and, ht]

/-- Witness for C5 at a concrete script: six consecutive HTTP 500 responses
starting from the cycle entry point. -/
theorem C5_witness :
    attemptsBounded (runCycle (List.replicate 6 (AttemptResult.httpError 500 none)) 0 false 0
      (initState Unit)).1 = true :=
  C5_attempts_bounded (List.replicate 6 (AttemptResult.httpError 500 none)) 0 false 0
    (initState Unit) (by decide)

/-! ### Endpoint bookkeeping for C6 -/

theorem attEndpoints_append (xs ys : List Ev) :
    attEndpoints (xs ++ ys) = attEndpoints xs ++ attEndpoints ys := by
  induction xs with
  | nil => rfl
  | cons e t ih => cases e <;> simp [attEndpoints, ih]

theorem attEndpoints_cycleHead (n : Nat) : attEndpoints (cycleHead n) = [] := by
  unfold cycleHead; split <;> rfl

theorem attEndpoints_sleeps (l : List Nat) : attEndpoints (l.map Ev.sleep) = [] := by
  induction l with
  | nil => rfl
  | cons a t ih => exact ih

/-- Once on the backup endpoint, every later attempt of the cycle is on the
backup endpoint. -/
theorem attEndpoints_all_backup {α} (script : List (AttemptResult α)) (n : Nat)
    (now : Nat) (s : AppState α) :
    ((attEndpoints (runCycle script n true now s).1).all fun x => x) = true := by
  induction script generalizing n s with
  | nil =>
    have h1 : (runCycle ([] : List (AttemptResult α)) n true now s).1 = cycleHead n := rfl
    rw [h1, attEndpoints_cycleHead]
    rfl
  | cons r rest ih =>
    simp only [runCycle]
    cases hstep : step r n true now (headState n s) with
    | settled s2 res =>
      rw [attEndpoints_append, attEndpoints_cycleHead]
      rfl
    | next sl n2 b2 s2 =>
      have hb2 : b2 = true := by
        rcases (step_next_inv hstep).1 with ⟨-, rfl, -⟩ | ⟨-, rfl, -⟩ <;> rfl
      subst hb2
      rw [attEndpoints_append, attEndpoints_cycleHead, List.nil_append]
      simpa [attEndpoints, attEndpoints_append, attEndpoints_sleeps] using ih n2 s2

theorem boolMono_of_all {l : List Bool} (h : (l.all fun x => x) = true) : boolMono l = true := by
  cases l with
  | nil => rfl
  | cons b t =>
    cases b
    · simp only [List.all_cons, Bool.and_eq_true] at h
      exact absurd h.1 (by decide)
    · simp only [List.all_cons, Bool.true_and] at h
      simpa [boolMono] using h

/-- Claim C6 amended (the within-cycle half, which holds): over every script,
starting index and starting endpoint, the sequence of endpoint selections of
a cycle's attempts never moves from backup back to primary.  (The
cross-cycle half fails: the next cycle starts from the `isUsingBackupAPI`
cell, which a timeout-driven switch never writes — see the counterexample.) -/
theorem C6_endpoint_monotone {α} (script : List (AttemptResult α)) (n : Nat) (b : Bool)
    (now : Nat) (s : AppState α) :
    boolMono (attEndpoints (runCycle script n b now s).1) = true := by
  induction script generalizing n b s with
  | nil =>
    have h1 : (runCycle ([] : List (AttemptResult α)) n b now s).1 = cycleHead n := rfl
    rw [h1, attEndpoints_cycleHead]
    rfl
  | cons r rest ih =>
    cases b
    · simp only [runCycle]
      cases hstep : step r n false now (headState n s) with
      | settled s2 res =>
        rw [attEndpoints_append, attEndpoints_cycleHead]
        rfl
      | next sl n2 b2 s2 =>
        rw [attEndpoints_append, attEndpoints_cycleHead, List.nil_append]
        simpa [attEndpoints, attEndpoints_append, attEndpoints_sleeps, boolMono]
          using ih n2 b2 s2
    · apply boolMono_of_all
      exact attEndpoints_all_backup (r :: rest) n now s

/-! ### Frame lemmas for C8 -/

theorem failStateAfter_cryptos {α} (msg : String) (s : AppState α) :
    (failStateAfter msg s).cryptocurrencies = s.cryptocurrencies := rfl

theorem failStateAfter_lastUpdate {α} (msg : String) (s : AppState α) :
    (failStateAfter msg s).lastUpdateTime = s.lastUpdateTime := rfl

theorem lastOption_cons_some {t : List Bool} {v : Bool} (b : Bool)
    (h : lastOption t = some v) : lastOption (b :: t) = some v := by
  simp [lastOption, h]

theorem lastAttemptEndpoint_single (n : Nat) (b : Bool) :
    lastAttemptEndpoint (cycleHead n ++ [Ev.attempt n b]) = some b := by
  unfold lastAttemptEndpoint
  rw [attEndpoints_append, attEndpoints_cycleHead]
  rfl

/-- Claim C8 (confirmed): a cycle that settles `failed` leaves the dataset and
the last-update timestamp exactly as they were at cycle start while surfacing
the terminal message as the visible error; a cycle that settles `succeeded`
replaces the dataset with the payload, clears the visible error, records the
settlement timestamp, and records as `isUsingBackupAPI` the endpoint of the
succeeding (last) attempt. -/
theorem C8_dataset_frame {α} (script : List (AttemptResult α)) (n : Nat) (b : Bool)
    (now : Nat) (s : AppState α) :
    (∀ msg, (runCycle script n b now s).2.2 = CycleResult.failed msg →
      (runCycle script n b now s).2.1.cryptocurrencies = s.cryptocurrencies ∧
      (runCycle script n b now s).2.1.error = some msg ∧
      (runCycle script n b now s).2.1.lastUpdateTime = s.lastUpdateTime) ∧
    (∀ payload, (runCycle script n b now s).2.2 = CycleResult.succeeded payload →
      (runCycle script n b now s).2.1.cryptocurrencies = payload ∧
      (runCycle script n b now s).2.1.error = none ∧
      (runCycle script n b now s).2.1.lastUpdateTime = some now ∧
      lastAttemptEndpoint (runCycle script n b now s).1 =
        some (runCycle script n b now s).2.1.isUsingBackupAPI) := by
  induction script generalizing n b s with
  | nil =>
    constructor
    · intro msg hmsg
      exact absurd hmsg (by simp [runCycle])
    · intro p hp
      exact absurd hp (by simp [runCycle])
  | cons r rest ih =>
    simp only [runCycle]
    cases hstep : step r n b now (headState n s) with
    | settled s2 res =>
      rcases step_settled_inv hstep with ⟨msg, rfl, rfl⟩ | ⟨p, rfl, rfl⟩
      · constructor
        · intro msg2 hmsg
          obtain rfl : msg = msg2 := by
            simpa using hmsg
          exact ⟨(failStateAfter_cryptos msg (headState n s)).trans (headState_cryptos n s),
            rfl,
            (failStateAfter_lastUpdate msg (headState n s)).trans (headState_lastUpdate n s)⟩
        · intro p hp
          exact absurd hp (by simp)
      · constructor
        · intro msg hmsg
          exact absurd hmsg (by simp)
        · intro p2 hp
          obtain rfl : p = p2 := by
            simpa using hp
          exact ⟨rfl, rfl, rfl, lastAttemptEndpoint_single n b⟩
    | next sl n2 b2 s2 =>
      obtain ⟨-, hc, hl⟩ := step_next_inv hstep
      have ihs := ih n2 b2 s2
      constructor
      · intro msg hmsg
        obtain ⟨e1, e2, e3⟩ := ihs.1 msg hmsg
        refine ⟨?_, e2, ?_⟩
        · rw [e1, hc, headState_cryptos]
        · rw [e3, hl, headState_lastUpdate]
      · intro p hp
        obtain ⟨e1, e2, e3, e4⟩ := ihs.2 p hp
        refine ⟨e1, e2, e3, ?_⟩
        unfold lastAttemptEndpoint
        rw [attEndpoints_append, attEndpoints_cycleHead, List.nil_append]
        show lastOption (b :: attEndpoints ((sl.map Ev.sleep) ++
          (runCycle rest n2 b2 now s2).1)) = _
        rw [attEndpoints_append, attEndpoints_sleeps, List.nil_append]
        exact lastOption_cons_some b e4

/-- Witness for C8 at a concrete failing script (a 2xx non-array body, which
matches the no-retry list): the dataset present at cycle start survives and
the message is surfaced. -/
theorem C8_witness :
    (runCycle [AttemptResult.okNotArray] 0 false 2
        { cryptocurrencies := [()], error := none, loading := false, retryCount := 0,
          lastUpdateTime := some 1, isUsingBackupAPI := false }).2.1.cryptocurrencies = [()] ∧
    (runCycle [AttemptResult.okNotArray] 0 false 2
        { cryptocurrencies := [()], error := none, loading := false, retryCount := 0,
          lastUpdateTime := some 1, isUsingBackupAPI := false }).2.1.error =
      some invalidFormatMsg ∧
    (runCycle [AttemptResult.okNotArray] 0 false 2
        { cryptocurrencies := [()], error := none, loading := false, retryCount := 0,
          lastUpdateTime := some 1, isUsingBackupAPI := false }).2.1.lastUpdateTime = some 1 :=
  (C8_dataset_frame [AttemptResult.okNotArray] 0 false 2
      { cryptocurrencies := [()], error := none, loading := false, retryCount := 0,
        lastUpdateTime := some 1, isUsingBackupAPI := false }).1
    invalidFormatMsg (by decide)

/-! ### Shape lemmas for single-attempt reasoning -/

theorem runCycle_next_fst {α} {r : AttemptResult α} (rest : List (AttemptResult α))
    {n : Nat} {b : Bool} {now : Nat} {s : AppState α} {sl : List Nat} {n2 : Nat} {b2 : Bool}
    {s2 : AppState α} (hstep : step r n b now (headState n s) = StepRes.next sl n2 b2 s2) :
    (runCycle (r :: rest) n b now s).1 =
      cycleHead n ++ Ev.attempt n b :: (sl.map Ev.sleep ++ (runCycle rest n2 b2 now s2).1) := by
  simp only [runCycle, hstep]

theorem runCycle_next_snd {α} {r : AttemptResult α} (rest : List (AttemptResult α))
    {n : Nat} {b : Bool} {now : Nat} {s : AppState α} {sl : List Nat} {n2 : Nat} {b2 : Bool}
    {s2 : AppState α} (hstep : step r n b now (headState n s) = StepRes.next sl n2 b2 s2) :
    (runCycle (r :: rest) n b now s).2 = (runCycle rest n2 b2 now s2).2 := by
  simp only [runCycle, hstep]

theorem runCycle_settled_snd {α} {r : AttemptResult α} (rest : List (AttemptResult α))
    {n : Nat} {b : Bool} {now : Nat} {s : AppState α} {s2 : AppState α} {res : CycleResult α}
    (hstep : step r n b now (headState n s) = StepRes.settled s2 res) :
    (runCycle (r :: rest) n b now s).2 = (s2, res) := by
  simp only [runCycle, hstep]

theorem runCycle_trace_shape {α} (r : AttemptResult α) (rest : List (AttemptResult α))
    (n : Nat) (b : Bool) (now : Nat) (s : AppState α) :
    ∃ X, (runCycle (r :: rest) n b now s).1 = cycleHead n ++ Ev.attempt n b :: X := by
  simp only [runCycle]
  cases step r n b now (headState n s) with
  | settled s2 res => exact ⟨[], rfl⟩
  | next sl n2 b2 s2 => exact ⟨_, rfl⟩

theorem cycleHead_succ (n : Nat) :
    cycleHead (n + 1) = [Ev.sleep (INITIAL_RETRY_DELAY * 2 ^ n)] := by
  unfold cycleHead
  rw [if_neg (Nat.succ_ne_zero n), Nat.add_sub_cancel]

theorem dropThroughAttempt_head (n : Nat) (b : Bool) (X : List Ev) :
    dropThroughAttempt (cycleHead n ++ Ev.attempt n b :: X) = X := by
  cases n <;> rfl

theorem nthAttempt_head (n m : Nat) (b : Bool) (X : List Ev) :
    nthAttempt (cycleHead n ++ Ev.attempt m b :: X) 0 = some (m, b) := by
  cases n <;> rfl

theorem nthAttempt_head_succ (n m : Nat) (b : Bool) (X : List Ev) (i : Nat) :
    nthAttempt (cycleHead n ++ Ev.attempt m b :: X) (i + 1) = nthAttempt X i := by
  cases n <;> rfl

theorem leadingSleeps_cons_sleep (d : Nat) (t : List Ev) :
    leadingSleeps (Ev.sleep d :: t) = d + leadingSleeps t := rfl

/-- Every invocation of `fetchCryptoData` with a positive retry index starts by
sleeping exactly the exponential-backoff delay before anything else happens. -/
theorem leadingSleeps_runCycle {α} (script : List (AttemptResult α)) (n : Nat) (b : Bool)
    (now : Nat) (s : AppState α) :
    leadingSleeps (runCycle script (n + 1) b now s).1 = INITIAL_RETRY_DELAY * 2 ^ n := by
  cases script with
  | nil =>
    show leadingSleeps (cycleHead (n + 1)) = _
    rw [cycleHead_succ]
    rfl
  | cons r rest =>
    obtain ⟨X, hX⟩ := runCycle_trace_shape r rest (n + 1) b now s
    rw [hX, cycleHead_succ]
    rfl

theorem nthAttempt_zero_runCycle {α} (r : AttemptResult α) (rest : List (AttemptResult α))
    (n : Nat) (b : Bool) (now : Nat) (s : AppState α) :
    nthAttempt (runCycle (r :: rest) n b now s).1 0 = some (n, b) := by
  obtain ⟨X, hX⟩ := runCycle_trace_shape r rest n b now s
  rw [hX, nthAttempt_head]

/-! ### Claim C1: HTTP 404 -/

/-- Claim C1 counterexample: a 404 on the very first attempt does not settle
the cycle — its message matches nothing in `noRetryErrors`, so the cycle
retries, and with a well-formed second response it even succeeds (two
attempts), where the claim demands immediate `Failed` with no further
attempt. -/
theorem C1_counterexample :
    (runCycle [AttemptResult.httpError 404 none, AttemptResult.okArray [()]] 0 false 0
        (initState Unit)).2.2 = CycleResult.succeeded [()] ∧
    countAttempts (runCycle [AttemptResult.httpError 404 none, AttemptResult.okArray [()]] 0
        false 0 (initState Unit)).1 = 2 := by decide

theorem step_404 {α} (m : Option String) (n : Nat) (b : Bool) (now : Nat) (s1 : AppState α) :
    step (AttemptResult.httpError 404 m) n b now s1 = catchCommon notFoundMsg n b s1 := by
  simp [step]

/-- Claim C1 amended: a NotFound (HTTP 404) outcome is retryable.  At retry
index `n < MAX_RETRIES` the cycle performs the 404 attempt and then continues
as a run of the remaining script with retry index `n + 1` on the same
endpoint (no terminal state); only at `n = MAX_RETRIES` does the 404 settle
the cycle as `Failed("The requested data is not available.")`. -/
theorem C1_notFound_retried {α} (m : Option String) (rest : List (AttemptResult α)) (n : Nat)
    (b : Bool) (now : Nat) (s : AppState α) :
    (n < MAX_RETRIES →
      (runCycle (AttemptResult.httpError 404 m :: rest) n b now s).1 =
        cycleHead n ++ Ev.attempt n b ::
          (runCycle rest (n + 1) b now (retryStateAfter notFoundMsg n (headState n s))).1 ∧
      (runCycle (AttemptResult.httpError 404 m :: rest) n b now s).2 =
        (runCycle rest (n + 1) b now (retryStateAfter notFoundMsg n (headState n s))).2) ∧
    (MAX_RETRIES ≤ n →
      (runCycle (AttemptResult.httpError 404 m :: rest) n b now s).2.2 =
        CycleResult.failed notFoundMsg) := by
  constructor
  · intro h
    have hstep : step (AttemptResult.httpError 404 m) n b now (headState n s) =
        StepRes.next [] (n + 1) b (retryStateAfter notFoundMsg n (headState n s)) := by
      rw [step_404]
      unfold catchCommon
      rw [if_pos ⟨h, by decide⟩]
    exact ⟨runCycle_next_fst rest hstep, runCycle_next_snd rest hstep⟩
  · intro h
    have hstep : step (AttemptResult.httpError 404 m) n b now (headState n s) =
        StepRes.settled (failStateAfter notFoundMsg (headState n s))
          (CycleResult.failed notFoundMsg) := by
      rw [step_404]
      unfold catchCommon
      rw [if_neg (fun hc => absurd hc.1 (Nat.not_lt.mpr h))]
    rw [runCycle_settled_snd rest hstep]

/-- Witness for the amended C1 at concrete inputs: retry index 0 retries; at
`MAX_RETRIES` the cycle settles with the 404 message. -/
theorem C1_witness :
    ((runCycle [AttemptResult.httpError 404 none] 0 false 0 (initState Unit)).1 =
        cycleHead 0 ++ Ev.attempt 0 false ::
          (runCycle [] 1 false 0
            (retryStateAfter notFoundMsg 0 (headState 0 (initState Unit)))).1 ∧
      (runCycle [AttemptResult.httpError 404 none] 0 false 0 (initState Unit)).2 =
        (runCycle [] 1 false 0
          (retryStateAfter notFoundMsg 0 (headState 0 (initState Unit)))).2) ∧
    (runCycle [AttemptResult.httpError 404 none] MAX_RETRIES true 0 (initState Unit)).2.2 =
      CycleResult.failed notFoundMsg :=
  ⟨(C1_notFound_retried none [] 0 false 0 (initState Unit)).1 (by decide),
   (C1_notFound_retried none [] MAX_RETRIES true 0 (initState Unit)).2 (le_refl MAX_RETRIES)⟩

/-! ### Claim C2: rate-limit retry delay -/

/-- Claim C2 counterexample: a 429 on the first attempt is followed by a
5000 ms sleep *and* the 2000 ms exponential-backoff sleep of the next
invocation, so the wall-clock wait before retry 1 is 7000 ms, not the fixed
5 s the claim states. -/
theorem C2_counterexample :
    leadingSleeps (dropThroughAttempt
        (runCycle [AttemptResult.httpError 429 none, AttemptResult.okArray [()]] 0 false 0
          (initState Unit)).1) = 7000 ∧
    nthAttempt (runCycle [AttemptResult.httpError 429 none, AttemptResult.okArray [()]] 0
        false 0 (initState Unit)).1 1 = some (1, false) := by decide

/-- Claim C2 amended: a retry triggered by a RateLimited (HTTP 429) outcome at
retry index `n < MAX_RETRIES` does stay on the same endpoint, but the total
wait before the next attempt is the fixed 5000 ms sleep of the 429 branch
*plus* the exponential backoff `INITIAL_RETRY_DELAY * 2 ^ n` performed at the
head of the recursive invocation. -/
theorem C2_rateLimited_delay {α} (m : Option String) (r : AttemptResult α)
    (rest : List (AttemptResult α)) (n : Nat) (b : Bool) (now : Nat) (s : AppState α)
    (h : n < MAX_RETRIES) :
    leadingSleeps (dropThroughAttempt
        (runCycle (AttemptResult.httpError 429 m :: r :: rest) n b now s).1) =
      5000 + INITIAL_RETRY_DELAY * 2 ^ n ∧
    nthAttempt (runCycle (AttemptResult.httpError 429 m :: r :: rest) n b now s).1 1 =
      some (n + 1, b) := by
  have hstep : step (AttemptResult.httpError 429 m) n b now (headState n s) =
      StepRes.next [5000] (n + 1) b { headState n s with retryCount := n + 1 } := by
    simp only [step]
    rw [if_pos trivial, if_pos h]
  have htr : (runCycle (AttemptResult.httpError 429 m :: r :: rest) n b now s).1 =
      cycleHead n ++ Ev.attempt n b :: Ev.sleep 5000 ::
        (runCycle (r :: rest) (n + 1) b now { headState n s with retryCount := n + 1 }).1 :=
    (runCycle_next_fst (r :: rest) hstep).trans rfl
  rw [htr, dropThroughAttempt_head, nthAttempt_head_succ]
  constructor
  · rw [leadingSleeps_cons_sleep, leadingSleeps_runCycle]
  · exact nthAttempt_zero_runCycle r rest (n + 1) b now _

/-- Witness for the amended C2 at retry index 0: the wait is 7000 ms and the
retry runs at index 1 on the primary endpoint. -/
theorem C2_witness :
    leadingSleeps (dropThroughAttempt
        (runCycle [AttemptResult.httpError 429 none, AttemptResult.okArray [()]] 0 false 0
          (initState Unit)).1) = 5000 + INITIAL_RETRY_DELAY * 2 ^ 0 ∧
    nthAttempt (runCycle [AttemptResult.httpError 429 none, AttemptResult.okArray [()]] 0
        false 0 (initState Unit)).1 1 = some (0 + 1, false) :=
  C2_rateLimited_delay none (AttemptResult.okArray [()]) [] 0 false 0 (initState Unit)
    (by decide)

/-! ### Claim C3: empty 2xx body -/

/-- Claim C3 counterexample: a 2xx response whose body is the empty array does
not settle the cycle — its message ("No cryptocurrency data available")
matches nothing in `noRetryErrors`, so the cycle retries (and here succeeds
on the second attempt), where the claim demands immediate `Failed` with zero
retries. -/
theorem C3_counterexample :
    (runCycle [AttemptResult.okArray ([] : List Unit), AttemptResult.okArray [()]] 0 false 0
        (initState Unit)).2.2 = CycleResult.succeeded [()] ∧
    countAttempts (runCycle [AttemptResult.okArray ([] : List Unit),
        AttemptResult.okArray [()]] 0 false 0 (initState Unit)).1 = 2 := by decide

theorem step_emptyArray {α} (n : Nat) (b : Bool) (now : Nat) (s1 : AppState α) :
    step (AttemptResult.okArray ([] : List α)) n b now s1 =
      catchCommon emptyDataMsg n b s1 := by
  simp [step]

/-- Claim C3 amended: an HTTP 2xx attempt whose body is an empty sequence
throws "No cryptocurrency data available", which is retryable: at retry index
`n < MAX_RETRIES` the cycle continues with index `n + 1` on the same
endpoint, and only at `n = MAX_RETRIES` does it settle as `Failed` with that
message.  (Only a non-array 2xx body, whose message contains "Invalid data",
fails with zero retries.) -/
theorem C3_emptyBody_retried {α} (rest : List (AttemptResult α)) (n : Nat)
    (b : Bool) (now : Nat) (s : AppState α) :
    (n < MAX_RETRIES →
      (runCycle (AttemptResult.okArray ([] : List α) :: rest) n b now s).1 =
        cycleHead n ++ Ev.attempt n b ::
          (runCycle rest (n + 1) b now (retryStateAfter emptyDataMsg n (headState n s))).1 ∧
      (runCycle (AttemptResult.okArray ([] : List α) :: rest) n b now s).2 =
        (runCycle rest (n + 1) b now (retryStateAfter emptyDataMsg n (headState n s))).2) ∧
    (MAX_RETRIES ≤ n →
      (runCycle (AttemptResult.okArray ([] : List α) :: rest) n b now s).2.2 =
        CycleResult.failed emptyDataMsg) := by
  constructor
  · intro h
    have hstep : step (AttemptResult.okArray ([] : List α)) n b now (headState n s) =
        StepRes.next [] (n + 1) b (retryStateAfter emptyDataMsg n (headState n s)) := by
      rw [step_emptyArray]
      unfold catchCommon
      rw [if_pos ⟨h, by decide⟩]
    exact ⟨runCycle_next_fst rest hstep, runCycle_next_snd rest hstep⟩
  · intro h
    have hstep : step (AttemptResult.okArray ([] : List α)) n b now (headState n s) =
        StepRes.settled (failStateAfter emptyDataMsg (headState n s))
          (CycleResult.failed emptyDataMsg) := by
      rw [step_emptyArray]
      unfold catchCommon
      rw [if_neg (fun hc => absurd hc.1 (Nat.not_lt.mpr h))]
    rw [runCycle_settled_snd rest hstep]

/-- Witness for the amended C3 at concrete inputs. -/
theorem C3_witness :
    ((runCycle [AttemptResult.okArray ([] : List Unit)] 0 false 0 (initState Unit)).1 =
        cycleHead 0 ++ Ev.attempt 0 false ::
          (runCycle [] 1 false 0
            (retryStateAfter emptyDataMsg 0 (headState 0 (initState Unit)))).1 ∧
      (runCycle [AttemptResult.okArray ([] : List Unit)] 0 false 0 (initState Unit)).2 =
        (runCycle [] 1 false 0
          (retryStateAfter emptyDataMsg 0 (headState 0 (initState Unit)))).2) ∧
    (runCycle [AttemptResult.okArray ([] : List Unit)] MAX_RETRIES false 0
        (initState Unit)).2.2 = CycleResult.failed emptyDataMsg :=
  ⟨(C3_emptyBody_retried [] 0 false 0 (initState Unit)).1 (by decide),
   (C3_emptyBody_retried [] MAX_RETRIES false 0 (initState Unit)).2 (le_refl MAX_RETRIES)⟩

/-! ### Claim C7: transient backoff -/

/-- Claim C7 counterexample: an HTTP 500 — a transient outcome by the spec's
classification — whose parsed body message happens to be "Access denied"
settles the cycle as `Failed` on the very first attempt (retry index 0,
well under `MAX_RETRIES`), because the catch block matches messages against
`noRetryErrors` rather than outcome kinds; the claim requires every
transient outcome below the budget to be retried. -/
theorem C7_counterexample :
    (runCycle [AttemptResult.httpError 500 (some "Access denied")] 0 false 0
        (initState Unit)).2.2 = CycleResult.failed "Access denied" ∧
    countAttempts (runCycle [AttemptResult.httpError 500 (some "Access denied")] 0 false 0
        (initState Unit)).1 = 1 := by decide

theorem step_transient {α} {status : Nat} (m : Option String) (n : Nat) (b : Bool) (now : Nat)
    (s1 : AppState α) (h429 : ¬ status = 429) (h403 : ¬ status = 403)
    (h404 : ¬ status = 404) :
    step (AttemptResult.httpError status m) n b now s1 =
      catchCommon (httpErrMsg status m) n b s1 := by
  simp only [step]
  rw [if_neg h429, if_neg h403, if_neg h404]

/-- Claim C7 amended: for a transient outcome (non-2xx status other than
429/403/404) whose derived message matches no entry of `noRetryErrors`: at
retry index `n < MAX_RETRIES` the cycle performs the attempt at `(n, b)`,
waits exactly `INITIAL_RETRY_DELAY * 2 ^ n` (the backoff of retry `n + 1`,
so the first retry waits the base delay) and runs the next attempt at index
`n + 1` on the same endpoint; at `n = MAX_RETRIES` the cycle settles as
`Failed` carrying the transient message. -/
theorem C7_transient_backoff {α} (status : Nat) (m : Option String) (r : AttemptResult α)
    (rest : List (AttemptResult α)) (n : Nat) (b : Bool) (now : Nat) (s : AppState α)
    (h429 : ¬ status = 429) (h403 : ¬ status = 403) (h404 : ¬ status = 404)
    (hmsg : msgRetryable (httpErrMsg status m) = true) :
    (n < MAX_RETRIES →
      nthAttempt (runCycle (AttemptResult.httpError status m :: r :: rest) n b now s).1 0 =
        some (n, b) ∧
      leadingSleeps (dropThroughAttempt
          (runCycle (AttemptResult.httpError status m :: r :: rest) n b now s).1) =
        INITIAL_RETRY_DELAY * 2 ^ n ∧
      nthAttempt (runCycle (AttemptResult.httpError status m :: r :: rest) n b now s).1 1 =
        some (n + 1, b)) ∧
    (MAX_RETRIES ≤ n →
      (runCycle (AttemptResult.httpError status m :: r :: rest) n b now s).2.2 =
        CycleResult.failed (httpErrMsg status m)) := by
  constructor
  · intro h
    have hstep : step (AttemptResult.httpError status m) n b now (headState n s) =
        StepRes.next [] (n + 1) b (retryStateAfter (httpErrMsg status m) n (headState n s)) := by
      rw [step_transient m n b now (headState n s) h429 h403 h404]
      unfold catchCommon
      rw [if_pos ⟨h, hmsg⟩]
    have htr : (runCycle (AttemptResult.httpError status m :: r :: rest) n b now s).1 =
        cycleHead n ++ Ev.attempt n b ::
          (runCycle (r :: rest) (n + 1) b now
            (retryStateAfter (httpErrMsg status m) n (headState n s))).1 :=
      (runCycle_next_fst (r :: rest) hstep).trans rfl
    rw [htr, dropThroughAttempt_head, nthAttempt_head, nthAttempt_head_succ]
    exact ⟨rfl, leadingSleeps_runCycle _ n b now _,
      nthAttempt_zero_runCycle r rest (n + 1) b now _⟩
  · intro h
    have hstep : step (AttemptResult.httpError status m) n b now (headState n s) =
        StepRes.settled (failStateAfter (httpErrMsg status m) (headState n s))
          (CycleResult.failed (httpErrMsg status m)) := by
      rw [step_transient m n b now (headState n s) h429 h403 h404]
      unfold catchCommon
      rw [if_neg (fun hc => absurd hc.1 (Nat.not_lt.mpr h))]
    rw [runCycle_settled_snd (r :: rest) hstep]

/-- Witness for the amended C7: an HTTP 500 with no parsable body at retry
index 0 waits the base delay and retries at index 1 on the same endpoint. -/
theorem C7_witness :
    (nthAttempt (runCycle [AttemptResult.httpError 500 none, AttemptResult.okArray [()]] 0
        false 0 (initState Unit)).1 0 = some (0, false) ∧
      leadingSleeps (dropThroughAttempt
          (runCycle [AttemptResult.httpError 500 none, AttemptResult.okArray [()]] 0 false 0
            (initState Unit)).1) = INITIAL_RETRY_DELAY * 2 ^ 0 ∧
      nthAttempt (runCycle [AttemptResult.httpError 500 none, AttemptResult.okArray [()]] 0
          false 0 (initState Unit)).1 1 = some (0 + 1, false)) :=
  (C7_transient_backoff 500 none (AttemptResult.okArray [()]) [] 0 false 0 (initState Unit)
      (by decide) (by decide) (by decide) (by decide)).1 (by decide)

/-! ### Claim C4: poll cadence -/

/-- Claim C4 counterexample: a reachable cycle — six consecutive transient
HTTP 500 responses — sleeps 62000 ms in backoff alone, so the fixed-tick
`setInterval` start of the following cycle (`tickStart arm 2`) comes strictly
before the earliest possible settlement of the cycle started at the previous
tick; the next cycle therefore begins before the prior one has settled,
contrary to the claim. -/
theorem C4_counterexample :
    tickStart 0 2 < tickStart 0 1 +
      cycleSleepTotal (runCycle (List.replicate 6 (AttemptResult.httpError 500 none)) 0 false 0
        (initState Unit)).1 ∧
    (runCycle (List.replicate 6 (AttemptResult.httpError 500 none)) 0 false 0
        (initState Unit)).2.2 = CycleResult.failed (httpErrMsg 500 none) := by decide

/-- Claim C4 amended: cycles after the first are started by the fixed
60-second wall-clock `setInterval` tick, not gated on settlement; the tick
that starts cycle `k + 1` precedes the end of cycle `k`'s sleeps exactly when
that cycle's cumulative sleep time exceeds `POLL_INTERVAL` — which reachable
schedules do (see the counterexample), so back-to-back cycles can overlap. -/
theorem C4_fixed_tick (arm k : Nat) (script : List (AttemptResult Unit)) (n : Nat)
    (b : Bool) (now : Nat) (s : AppState Unit) :
    tickStart arm (k + 1) < tickStart arm k +
        cycleSleepTotal (runCycle script n b now s).1 ↔
      POLL_INTERVAL < cycleSleepTotal (runCycle script n b now s).1 := by
  simp only [tickStart, POLL_INTERVAL]
  omega

/-! ### Claim C6: endpoint switching -/

/-- Claim C6 counterexample: a cycle that starts on primary, switches to
backup because the first attempt times out (the `AbortError` branch, which
does not set `isUsingBackupAPI`), and then fails transiently to exhaustion,
ends with its last attempt on the backup endpoint while the
`isUsingBackupAPI` cell — which the interval callback passes to the next
cycle as its starting endpoint — still reads primary; the next cycle
therefore does not start on the endpoint this cycle ended on. -/
theorem C6_counterexample :
    lastAttemptEndpoint (runCycle (AttemptResult.timeout ::
        List.replicate 6 (AttemptResult.httpError 500 none)) 0 false 0
        (initState Unit)).1 = some true ∧
    nextCycleStartEndpoint (runCycle (AttemptResult.timeout ::
        List.replicate 6 (AttemptResult.httpError 500 none)) 0 false 0
        (initState Unit)).2.1 = false ∧
    (runCycle (AttemptResult.timeout ::
        List.replicate 6 (AttemptResult.httpError 500 none)) 0 false 0
        (initState Unit)).2.2 = CycleResult.failed (httpErrMsg 500 none) := by decide

/-! ### Claim C9: toggleWatchlist -/

/-- Claim C9 (confirmed): `toggleWatchlist id` flips exactly the membership of
`id` (adds it when absent, removes it when present), leaves every other
identifier's membership unchanged, and applied twice restores the original
watchlist. -/
theorem C9_toggle (w : Finset String) (id : String) :
    (id ∈ toggleWatchlist w id ↔ id ∉ w) ∧
    (∀ x, x ≠ id → (x ∈ toggleWatchlist w id ↔ x ∈ w)) ∧
    toggleWatchlist (toggleWatchlist w id) id = w := by
  by_cases h : id ∈ w
  · refine ⟨?_, ?_, ?_⟩
    · simp [toggleWatchlist, h]
    · intro x hx
      simp [toggleWatchlist, h, Finset.mem_erase, hx]
    · have h2 : id ∉ w.erase id := by simp
      simp only [toggleWatchlist, if_pos h, if_neg h2]
      exact Finset.insert_erase h
  · refine ⟨?_, ?_, ?_⟩
    · simp [toggleWatchlist, h]
    · intro x hx
      simp [toggleWatchlist, h, Finset.mem_insert, hx]
    · have h2 : id ∈ insert id w := Finset.mem_insert_self id w
      simp only [toggleWatchlist, if_neg h, if_pos h2]
      exact Finset.erase_insert h

/-- Witness for C9 on a concrete watchlist: the membership of an unrelated id
is untouched and the double toggle is the identity. -/
theorem C9_witness :
    (("eth" ∈ toggleWatchlist (∅ : Finset String) "btc") ↔ "eth" ∈ (∅ : Finset String)) ∧
    toggleWatchlist (toggleWatchlist (∅ : Finset String) "btc") "btc" = ∅ :=
  ⟨(C9_toggle ∅ "btc").2.1 "eth" (by decide), (C9_toggle ∅ "btc").2.2⟩

/-! ### Claim C10: search filtering -/

theorem listContains_nil (hay : List Char) : listContains hay [] = true := by
  cases hay <;> simp [listContains, List.isPrefixOf]

/-- Claim C10 (confirmed): the displayed filtered list is exactly the
order-preserving sublist of the fetched list consisting of the entries whose
name or symbol contains the search term case-insensitively, and the empty
search term yields the whole list unchanged. -/
theorem C10_filter (NumT : Type) (l : List (Cryptocurrency NumT)) (t : String) :
    (filteredCryptos l t).Sublist l ∧
    (∀ c, c ∈ filteredCryptos l t ↔ c ∈ l ∧ matchesSearch t c = true) ∧
    filteredCryptos l "" = l := by
  refine ⟨List.filter_sublist l, fun c => List.mem_filter, ?_⟩
  have hall : ∀ c : Cryptocurrency NumT, matchesSearch "" c = true := by
    intro c
    have he : (lowerStr "").data = [] := rfl
    simp [matchesSearch, strIncludes, he, listContains_nil]
  exact List.filter_eq_self.mpr fun c _ => hall c

end Coincap
